import Mathlib

/-!
Verification of the PhishGuard recon core (src/phishguard.py).

The Python core is shallowly embedded below.  External collaborators
(HTTP fetch, BeautifulSoup href extraction, urllib resolution, ssdeep
hashing) are passed in as function parameters, mirroring the boundary
drawn by the design document.  Python exceptions are modelled with
Except Unit; Python None with Option.  Machine strings are Lean String
(a list of characters), Python len on a str is String.length.
-/

namespace PhishGuard

/-- Python str.split on a single separator character, on the character
list level: splitting the empty text yields one empty piece, and each
separator occurrence starts a new piece.  This is the translation of
the hostname.split calls in phishguard.py. -/
def splitDotAux : List Char → List (List Char)
  | [] => [[]]
  | c :: cs =>
    if c = '.' then [] :: splitDotAux cs
    else
      match splitDotAux cs with
      | [] => [[c]]
      | g :: gs => (c :: g) :: gs

/-- Python expression s.split applied with the dot separator. -/
def pySplitDot (s : String) : List String :=
  (splitDotAux s.data).map (fun cs => String.mk cs)

/-- Python expression s.count applied to the dot character. -/
def pyCountDot (s : String) : Nat :=
  s.data.count '.'

/-- Python negative indexing l[-k] for a list of strings, as used in
phishguard.py via split(...)[-2] and split(...)[-1]; out of range
raises IndexError, modelled as an error value. -/
def pyNegIdx (l : List String) (k : Nat) : Except Unit String :=
  if k ≤ l.length ∧ 1 ≤ k then Except.ok (l.getD (l.length - k) "") else Except.error ()

/-- Python str.lower, restricted to the ASCII range handled by
Char.toLower; domain strings in this program are ASCII. -/
def pyLower (s : String) : String :=
  String.mk (s.data.map Char.toLower)

/-- Python str.split with no argument: split on whitespace runs,
dropping empty pieces. -/
def pyWords (s : String) : List String :=
  (s.split (fun c => c.isWhitespace)).filter (fun w => w ≠ "")

/-- Set insertion for the Python set.add calls: the accumulator keeps
one copy of each element, in first-insertion order. -/
def setAdd {α : Type} [DecidableEq α] (acc : List α) (x : α) : List α :=
  if x ∈ acc then acc else acc ++ [x]

/-- A Python set built from a list, as a duplicate-free list in
first-insertion order. -/
def setOfList {α : Type} [DecidableEq α] (l : List α) : List α :=
  l.foldl setAdd []

/-- Joining a list of labels with dots, the spec reading of the phrase
joined by a dot. -/
def joinDot : List String → String
  | [] => ""
  | [s] => s
  | s :: rest => s ++ "." ++ joinDot rest

/-- Translation of line 164 of phishguard.py: the domain base of a
hostname is the last two dot-separated labels when the hostname has
more than one dot and the second-to-last label differs from the token
co; otherwise it is the hostname itself, unchanged. -/
def domain_of_hostname (hostname : String) : String :=
  if 1 < pyCountDot hostname ∧ (pySplitDot hostname).getD ((pySplitDot hostname).length - 2) "" ≠ "co" then
    (pySplitDot hostname).getD ((pySplitDot hostname).length - 2) "" ++ "." ++
      (pySplitDot hostname).getD ((pySplitDot hostname).length - 1) ""
  else hostname

/-- Case-insensitive Levenshtein distance on character lists with unit
costs, the contract of the external Levenshtein.distance routine
called by calculate_similarity. -/
def lev_distance (s1 s2 : String) : Nat :=
  levenshtein Levenshtein.defaultCost s1.toList s2.toList

/-- Translation of calculate_similarity in phishguard.py.  The fail
parameter models an exception escaping the Levenshtein library call
for the given pair of inputs (the except branch of the Python code);
passing a constantly false fail gives the normal behaviour.  When one
input is empty the sum of lengths is returned before the library is
consulted; on failure the large sentinel distance is returned. -/
def calculate_similarity (fail : String → String → Bool) (s1 s2 : String) : Nat :=
  if s1 = "" ∨ s2 = "" then s1.length + s2.length
  else if fail s1 s2 then max (s1.length + 1) (s2.length + 1)
  else lev_distance (pyLower s1) (pyLower s2)

/-- Leading-marker test on character lists: true when the first list
is an initial segment of the second.  This is the character-level
meaning of Python str.startswith. -/
def charsStartWith : List Char → List Char → Bool
  | [], _ => true
  | _ :: _, [] => false
  | p :: ps, c :: cs => p == c && charsStartWith ps cs

/-- Python str.startswith for one marker string. -/
def pyStartswith (s marker : String) : Bool :=
  charsStartWith marker.data s.data

/-- Scheme filter of analyze_links: Python link.startswith applied to
the tuple of the four dropped scheme markers. -/
def is_dropped_scheme (link : String) : Bool :=
  pyStartswith link "#" || pyStartswith link "mailto:" || pyStartswith link "javascript:" || pyStartswith link "tel:"

/-- Translation of the first lines of urllib.parse.urljoin: an empty
base yields the reference, an empty reference yields the base, and
the general resolution step is the resolve parameter (an external
collaborator in the design). -/
def urljoin (resolve : String → String → String) (base url : String) : String :=
  if base = "" then url
  else if url = "" then base
  else resolve base url

/-- Translation of analyze_links in phishguard.py: an empty input list
returns the empty list; otherwise each link not starting with one of
the dropped scheme markers is resolved against the base URL and added
to a set of clean links. -/
def analyze_links (resolve : String → String → String) (links : List String) (base_url : String) : List String :=
  if links = [] then []
  else
    links.foldl
      (fun clean_links link =>
        if is_dropped_scheme link then clean_links
        else setAdd clean_links (urljoin resolve base_url link))
      []

/-- Helper for the netloc model: strip a leading alphabetic scheme
followed by a colon, as urllib.parse.urlsplit does. -/
def strip_scheme (url : String) : String :=
  let letters := url.data.takeWhile (fun c => c.isAlpha)
  if letters ≠ [] ∧ url.data.getD letters.length ' ' = ':' then
    String.mk (url.data.drop (letters.length + 1))
  else url

/-- Netloc extraction modelled on urllib.parse.urlparse for URLs with
an alphabetic scheme or none: the netloc is the text after a leading
double slash up to the next slash, question mark or hash, and a
bracket appearing without its partner raises ValueError (the invalid
IPv6 URL error), modelled as an error value. -/
def urlparse_netloc (url : String) : Except Unit String :=
  let rest := strip_scheme url
  if pyStartswith rest "//" then
    let netloc := String.mk ((rest.data.drop 2).takeWhile (fun c => c ≠ '/' ∧ c ≠ '?' ∧ c ≠ '#'))
    if ('[' ∈ netloc.data ∧ ']' ∉ netloc.data) ∨ (']' ∈ netloc.data ∧ '[' ∉ netloc.data) then
      Except.error ()
    else Except.ok netloc
  else Except.ok ""

/-- A typo-squatting finding: the observed domain base, the matched
legitimate domain base, and their edit distance.  The Python code
renders this triple into a warning string and stores the strings in a
set; the string is determined by the triple, so the set of findings is
modelled as a set of triples. -/
def Finding : Type := String × String × Nat

instance : DecidableEq Finding := by
  unfold Finding
  infer_instance

instance {ε α : Type} [DecidableEq ε] [DecidableEq α] : DecidableEq (Except ε α) := fun x y =>
  match x, y with
  | Except.ok a, Except.ok b =>
    if h : a = b then isTrue (h ▸ rfl) else isFalse (fun hc => h (Except.ok.inj hc))
  | Except.error e, Except.error f =>
    if h : e = f then isTrue (h ▸ rfl) else isFalse (fun hc => h (Except.error.inj hc))
  | Except.ok _, Except.error _ => isFalse (fun hc => Except.noConfusion hc)
  | Except.error _, Except.ok _ => isFalse (fun hc => Except.noConfusion hc)

/-- Inner loop body of check_typo_squatting (lines 169 to 180): for
one legitimate domain, build its lowercased base from the last two
labels (a missing dot raises IndexError), derive the length-dependent
threshold, compute the distance, and record the finding when the
distance is strictly positive and at most the threshold. -/
def legit_pair_step (fail : String → String → Bool) (domain : String) (acc : List Finding) (legit_domain : String) : Except Unit (List Finding) := do
  let lparts := pySplitDot (pyLower legit_domain)
  let l2 ← pyNegIdx lparts 2
  let l1 ← pyNegIdx lparts 1
  let legit_domain_base := l2 ++ "." ++ l1
  let threshold := if legit_domain_base.length ≤ 7 then 2 else 3
  let distance := calculate_similarity fail domain legit_domain_base
  pure (if 0 < distance ∧ distance ≤ threshold then setAdd acc (domain, legit_domain_base, distance) else acc)

/-- Outer loop body of check_typo_squatting (lines 161 to 180): parse
the hostname of one link, reduce it to a domain base, skip the link
when that base equals the last two labels of the target netloc, and
otherwise score it against every legitimate domain.  Any error
escapes, matching the single try block around the whole loop. -/
def process_link (parse : String → Except Unit String) (fail : String → String → Bool) (target_url : String) (legitimate_domains : List String) (acc : List Finding) (link : String) : Except Unit (List Finding) := do
  let hostname ← parse link
  let domain := domain_of_hostname hostname
  let tnet ← parse target_url
  let tparts := pySplitDot tnet
  let t2 ← pyNegIdx tparts 2
  let t1 ← pyNegIdx tparts 1
  if domain = t2 ++ "." ++ t1 then pure acc
  else legitimate_domains.foldlM (legit_pair_step fail domain) acc

/-- The link loop of check_typo_squatting over the clean links,
accumulating the set of suspicious findings; the first exception
aborts the whole loop. -/
def linksLoop (parse : String → Except Unit String) (fail : String → String → Bool) (target_url : String) (legitimate_domains : List String) (clean_links : List String) : Except Unit (List Finding) :=
  clean_links.foldlM (process_link parse fail target_url legitimate_domains) []

/-- Translation of check_typo_squatting in phishguard.py.  An empty
target URL or an empty legitimate list raises ValueError, caught by
the except branch which returns the empty list.  A failed or empty
fetch returns early with no collection (Python returns None).  An
exception anywhere in the link loop is caught by the same except
branch and the empty list is returned, discarding any findings made
so far.  On the normal path the accumulated findings are produced
(the Python code prints them). -/
def check_typo_squatting (fetch : String → Option String) (extract : String → List String) (resolve : String → String → String) (parse : String → Except Unit String) (fail : String → String → Bool) (target_url : String) (legitimate_domains : List String) : Option (List Finding) :=
  if target_url = "" ∨ legitimate_domains = [] then some []
  else
    match fetch target_url with
    | none => none
    | some html_content =>
      if html_content = "" then none
      else
        let raw_links := extract html_content
        let clean_links := analyze_links resolve raw_links target_url
        match linksLoop parse fail target_url legitimate_domains clean_links with
        | Except.ok fs => some fs
        | Except.error _ => some []

/-- A content-similarity finding as printed by compare_page_content:
both URLs, the fuzzy hash score and the word overlap percentage. -/
structure ContentFinding where
  target_url : String
  legitimate_url : String
  score : Nat
  similarity_percentage : Rat
deriving DecidableEq

/-- Translation of compare_page_content in phishguard.py.  The ssdeep
hash and compare routines are external parameters.  A failed or empty
fetch of either body raises ValueError, caught by the except branch
returning failure; otherwise the token-overlap percentage and the
fuzzy score are computed and a finding is emitted exactly when the
score exceeds 50. -/
def compare_page_content (fetch : String → Option String) (sshash : String → String) (sscompare : String → String → Nat) (target_url legitimate_url : String) : Except Unit (Option ContentFinding) :=
  match fetch target_url, fetch legitimate_url with
  | some target_html, some legit_html =>
    if target_html = "" ∨ legit_html = "" then Except.error ()
    else
      let target_set := setOfList (pyWords target_html)
      let legit_set := setOfList (pyWords legit_html)
      let common_words := target_set.filter (fun w => w ∈ legit_set)
      let total_words := setOfList (target_set ++ legit_set)
      let similarity_percentage : Rat :=
        if total_words ≠ [] then ((common_words.length : Rat) / (total_words.length : Rat)) * 100 else 0
      let score := sscompare (sshash target_html) (sshash legit_html)
      Except.ok (if 50 < score then some ⟨target_url, legitimate_url, score, similarity_percentage⟩ else none)
  | _, _ => Except.error ()

/-- Translation of run_analysis in phishguard.py: the typo-squatting
check runs first, then one content comparison per legitimate domain;
the pair of both outcomes is the report of the run. -/
def run_analysis (fetch : String → Option String) (extract : String → List String) (resolve : String → String → String) (parse : String → Except Unit String) (fail : String → String → Bool) (sshash : String → String) (sscompare : String → String → Nat) (target_url : String) (legitimate_domains : List String) : Option (List Finding) × List (Except Unit (Option ContentFinding)) :=
  (check_typo_squatting fetch extract resolve parse fail target_url legitimate_domains,
   legitimate_domains.map (fun legit_url => compare_page_content fetch sshash sscompare target_url legit_url))

/-- The content findings actually emitted during a run: the successful
comparisons that produced a finding. -/
def content_findings (rs : List (Except Unit (Option ContentFinding))) : List ContentFinding :=
  rs.filterMap (fun r =>
    match r with
    | Except.ok (some f) => some f
    | _ => none)

/-! Helper lemmas shared by the claim theorems. -/

theorem exceptBind_ok {α β : Type} (a : α) (f : α → Except Unit β) : (Except.ok a >>= f) = f a := rfl

theorem exceptBind_error {α β : Type} (f : α → Except Unit β) : ((Except.error () : Except Unit α) >>= f) = Except.error () := rfl

theorem exceptPure {α : Type} (a : α) : (pure a : Except Unit α) = Except.ok a := rfl

theorem splitDotAux_length (l : List Char) : (splitDotAux l).length = l.count '.' + 1 := by
  induction l with
  | nil => simp [splitDotAux]
  | cons c cs ih =>
    by_cases h : c = '.'
    · subst h
      simp [splitDotAux, ih, List.count_cons]
    · simp only [splitDotAux, if_neg h]
      cases hcs : splitDotAux cs with
      | nil => rw [hcs] at ih; simp at ih
      | cons g gs =>
        rw [hcs] at ih
        simp only [List.length_cons] at ih ⊢
        simp [List.count_cons, h]
        omega

theorem pySplitDot_length (s : String) : (pySplitDot s).length = pyCountDot s + 1 := by
  unfold pySplitDot pyCountDot
  rw [List.length_map, splitDotAux_length]

theorem drop_last_two (l : List String) (h : 2 ≤ l.length) :
    l.drop (l.length - 2) = [l.getD (l.length - 2) "", l.getD (l.length - 1) ""] := by
  have h1 : l.length - 2 < l.length := by omega
  have h2 : l.length - 1 < l.length := by omega
  rw [List.drop_eq_getElem_cons h1]
  have e1 : l.length - 2 + 1 = l.length - 1 := by omega
  rw [e1, List.drop_eq_getElem_cons h2]
  have e2 : l.length - 1 + 1 = l.length := by omega
  rw [e2, List.drop_length]
  rw [List.getD_eq_getElem?_getD, List.getD_eq_getElem?_getD,
    List.getElem?_eq_getElem h1, List.getElem?_eq_getElem h2]
  simp

theorem joinDot_pair (a b : String) : joinDot [a, b] = a ++ "." ++ b := rfl

theorem string_length_pos (s : String) (h : s ≠ "") : 1 ≤ s.length := by
  cases s with
  | mk data =>
    cases data with
    | nil => exact absurd rfl h
    | cons c cs => simp

theorem pyLower_length (s : String) : (pyLower s).length = s.length := by
  cases s with
  | mk data => simp [pyLower]

theorem levenshtein_le_sum (xs ys : List Char) :
    levenshtein Levenshtein.defaultCost xs ys ≤ xs.length + ys.length := by
  induction xs generalizing ys with
  | nil =>
    induction ys with
    | nil => simp [levenshtein_nil_nil]
    | cons y ys ihy =>
      rw [levenshtein_nil_cons]
      simp only [Levenshtein.defaultCost_insert, List.length_nil, List.length_cons] at ihy ⊢
      omega
  | cons x xs ihx =>
    cases ys with
    | nil =>
      rw [levenshtein_cons_nil]
      have := ihx []
      simp only [Levenshtein.defaultCost_delete, List.length_nil, List.length_cons] at this ⊢
      omega
    | cons y ys =>
      rw [levenshtein_cons_cons]
      have hd := ihx (y :: ys)
      have hmin : min (Levenshtein.defaultCost.delete x + levenshtein Levenshtein.defaultCost xs (y :: ys))
          (min (Levenshtein.defaultCost.insert y + levenshtein Levenshtein.defaultCost (x :: xs) ys)
            (Levenshtein.defaultCost.substitute x y + levenshtein Levenshtein.defaultCost xs ys)) ≤
          Levenshtein.defaultCost.delete x + levenshtein Levenshtein.defaultCost xs (y :: ys) :=
        min_le_left _ _
      simp only [Levenshtein.defaultCost_delete, List.length_cons] at hd hmin ⊢
      omega

theorem setAdd_nodup {α : Type} [DecidableEq α] (acc : List α) (x : α) (h : acc.Nodup) :
    (setAdd acc x).Nodup := by
  by_cases hx : x ∈ acc
  · simpa [setAdd, hx] using h
  · simp [setAdd, hx, List.nodup_append, h]

theorem foldlM_except_preserve {α σ : Type} (P : σ → Prop) (step : σ → α → Except Unit σ)
    (hstep : ∀ acc x r, step acc x = Except.ok r → P acc → P r) :
    ∀ (l : List α) (acc r : σ), List.foldlM step acc l = Except.ok r → P acc → P r := by
  intro l
  induction l with
  | nil =>
    intro acc r h hp
    simp only [List.foldlM_nil, exceptPure, Except.ok.injEq] at h
    exact h ▸ hp
  | cons x xs ih =>
    intro acc r h hp
    rw [List.foldlM_cons] at h
    cases hs : step acc x with
    | error e => rw [hs] at h; cases e; rw [exceptBind_error] at h; exact absurd h (by simp)
    | ok a =>
      rw [hs, exceptBind_ok] at h
      exact ih a r h (hstep acc x a hs hp)

theorem legit_pair_step_nodup (fail : String → String → Bool) (domain : String) (acc : List Finding) (legit_domain : String) (r : List Finding) (h : legit_pair_step fail domain acc legit_domain = Except.ok r) (hn : acc.Nodup) : r.Nodup := by
  simp only [legit_pair_step] at h
  cases h2 : pyNegIdx (pySplitDot (pyLower legit_domain)) 2 with
  | error e => cases e; rw [h2, exceptBind_error] at h; exact absurd h (by simp)
  | ok l2 =>
    rw [h2, exceptBind_ok] at h
    cases h1 : pyNegIdx (pySplitDot (pyLower legit_domain)) 1 with
    | error e => cases e; rw [h1, exceptBind_error] at h; exact absurd h (by simp)
    | ok l1 =>
      rw [h1, exceptBind_ok, exceptPure, Except.ok.injEq] at h
      split at h
      · split at h
        · exact h ▸ setAdd_nodup acc _ hn
        · exact h ▸ hn
      · split at h
        · exact h ▸ setAdd_nodup acc _ hn
        · exact h ▸ hn

theorem process_link_nodup (parse : String → Except Unit String) (fail : String → String → Bool) (target_url : String) (legitimate_domains : List String) (acc : List Finding) (link : String) (r : List Finding) (h : process_link parse fail target_url legitimate_domains acc link = Except.ok r) (hn : acc.Nodup) : r.Nodup := by
  simp only [process_link] at h
  cases hp : parse link with
  | error e => cases e; rw [hp, exceptBind_error] at h; exact absurd h (by simp)
  | ok hostname =>
    rw [hp, exceptBind_ok] at h
    cases ht : parse target_url with
    | error e => cases e; rw [ht, exceptBind_error] at h; exact absurd h (by simp)
    | ok tnet =>
      rw [ht, exceptBind_ok] at h
      cases h2 : pyNegIdx (pySplitDot tnet) 2 with
      | error e => cases e; rw [h2, exceptBind_error] at h; exact absurd h (by simp)
      | ok t2 =>
        rw [h2, exceptBind_ok] at h
        cases h1 : pyNegIdx (pySplitDot tnet) 1 with
        | error e => cases e; rw [h1, exceptBind_error] at h; exact absurd h (by simp)
        | ok t1 =>
          rw [h1, exceptBind_ok] at h
          split at h
          · rw [exceptPure, Except.ok.injEq] at h
            exact h ▸ hn
          · exact foldlM_except_preserve List.Nodup (legit_pair_step fail (domain_of_hostname hostname))
              (fun a x rr hr ha => legit_pair_step_nodup fail (domain_of_hostname hostname) a x rr hr ha)
              legitimate_domains acc r h hn

theorem linksLoop_nodup (parse : String → Except Unit String) (fail : String → String → Bool) (target_url : String) (legitimate_domains : List String) (links : List String) (fs : List Finding) (h : linksLoop parse fail target_url legitimate_domains links = Except.ok fs) : fs.Nodup := by
  unfold linksLoop at h
  exact foldlM_except_preserve List.Nodup (process_link parse fail target_url legitimate_domains)
    (fun a x rr hr ha => process_link_nodup parse fail target_url legitimate_domains a x rr hr ha)
    links [] fs h List.nodup_nil

/-- C2: the Typo-Squat Detector, given a non-empty target URL and a
non-empty legitimate-domains list, produces a deduplicated collection
of findings: whatever collection the check hands back, findings with
identical observed-base, matched-base, distance triples collapse to
one entry (the collection has no duplicates). -/
theorem check_typo_squatting_deduplicated (fetch : String → Option String) (extract : String → List String) (resolve : String → String → String) (parse : String → Except Unit String) (fail : String → String → Bool) (target_url : String) (legitimate_domains : List String) (fs : List Finding) (htarget : target_url ≠ "") (hlegit : legitimate_domains ≠ []) (h : check_typo_squatting fetch extract resolve parse fail target_url legitimate_domains = some fs) : fs.Nodup := by
  unfold check_typo_squatting at h
  rw [if_neg (by simp [htarget, hlegit])] at h
  cases hf : fetch target_url with
  | none => simp [hf] at h
  | some html =>
    simp only [hf] at h
    by_cases hh : html = ""
    · simp [hh] at h
    · rw [if_neg hh] at h
      cases hll : linksLoop parse fail target_url legitimate_domains (analyze_links resolve (extract html) target_url) with
      | ok fs0 =>
        simp only [hll, Option.some.injEq] at h
        exact h ▸ linksLoop_nodup parse fail target_url legitimate_domains _ fs0 hll
      | error e =>
        cases e
        simp only [hll, Option.some.injEq] at h
        exact h ▸ List.nodup_nil

theorem check_typo_squatting_deduplicated_witness :
    ([("paypa1.com", "paypal.com", 1)] : List Finding).Nodup :=
  check_typo_squatting_deduplicated (fun _ => some "page") (fun _ => ["https://paypa1.com"]) (fun _ u => u) urlparse_netloc (fun _ _ => false) "https://example.com" ["paypal.com"] [("paypa1.com", "paypal.com", 1)] (by decide) (by simp) (by decide)

/-- C3: when the fetch of the target URL fails, the run is terminal:
the typo-squat check stops before any link analysis (its outcome
carries no findings collection at all), every content-similarity
comparison is skipped before any similarity computation, and the
report of the run is empty. -/
theorem run_analysis_target_fetch_terminal (fetch : String → Option String) (extract : String → List String) (resolve : String → String → String) (parse : String → Except Unit String) (fail : String → String → Bool) (sshash : String → String) (sscompare : String → String → Nat) (target_url : String) (legitimate_domains : List String) (hf : fetch target_url = none) (htarget : target_url ≠ "") (hlegit : legitimate_domains ≠ []) :
    (run_analysis fetch extract resolve parse fail sshash sscompare target_url legitimate_domains).1 = none ∧
    (∀ r ∈ (run_analysis fetch extract resolve parse fail sshash sscompare target_url legitimate_domains).2, r = Except.error ()) ∧
    content_findings (run_analysis fetch extract resolve parse fail sshash sscompare target_url legitimate_domains).2 = [] := by
  have hall : ∀ r ∈ (run_analysis fetch extract resolve parse fail sshash sscompare target_url legitimate_domains).2, r = Except.error () := by
    intro r hr
    unfold run_analysis at hr
    simp only [List.mem_map] at hr
    obtain ⟨legit_url, _, rfl⟩ := hr
    unfold compare_page_content
    rw [hf]
  refine ⟨?_, hall, ?_⟩
  · unfold run_analysis check_typo_squatting
    rw [if_neg (by simp [htarget, hlegit]), hf]
  · unfold content_findings
    rw [List.filterMap_eq_nil_iff]
    intro r hr
    rw [hall r hr]

theorem run_analysis_target_fetch_terminal_witness :
    (run_analysis (fun _ => none) (fun _ => []) (fun _ u => u) urlparse_netloc (fun _ _ => false) (fun _ => "") (fun _ _ => 0) "https://suspicious.example" ["https://www.google.com"]).1 = none ∧
    (∀ r ∈ (run_analysis (fun _ => none) (fun _ => []) (fun _ u => u) urlparse_netloc (fun _ _ => false) (fun _ => "") (fun _ _ => 0) "https://suspicious.example" ["https://www.google.com"]).2, r = Except.error ()) ∧
    content_findings (run_analysis (fun _ => none) (fun _ => []) (fun _ u => u) urlparse_netloc (fun _ _ => false) (fun _ => "") (fun _ _ => 0) "https://suspicious.example" ["https://www.google.com"]).2 = [] :=
  run_analysis_target_fetch_terminal (fun _ => none) (fun _ => []) (fun _ u => u) urlparse_netloc (fun _ _ => false) (fun _ => "") (fun _ _ => 0) "https://suspicious.example" ["https://www.google.com"] rfl (by decide) (by simp)

theorem string_toList_length (s : String) : s.toList.length = s.length := by
  cases s with
  | mk data => rfl

theorem lev_distance_le_sum (s1 s2 : String) : lev_distance s1 s2 ≤ s1.length + s2.length := by
  unfold lev_distance
  have hb := levenshtein_le_sum s1.toList s2.toList
  rwa [string_toList_length, string_toList_length] at hb

/-- C10: for every pair of input strings and every failure behaviour
of the underlying library call, calculate_similarity returns a
natural number bounded by the sum of the two lengths; on an empty
input the result is exactly the sum of the lengths (the length of the
other string). -/
theorem calculate_similarity_total_bound (fail : String → String → Bool) (s1 s2 : String) :
    calculate_similarity fail s1 s2 ≤ s1.length + s2.length ∧
    calculate_similarity fail "" s2 = s2.length ∧
    calculate_similarity fail s1 "" = s1.length := by
  refine ⟨?_, ?_, ?_⟩
  · unfold calculate_similarity
    by_cases he : s1 = "" ∨ s2 = ""
    · rw [if_pos he]
    · rw [if_neg he]
      push_neg at he
      obtain ⟨h1, h2⟩ := he
      have l1 := string_length_pos s1 h1
      have l2 := string_length_pos s2 h2
      by_cases hfail : fail s1 s2
      · rw [if_pos hfail]
        omega
      · rw [if_neg hfail]
        have hb := lev_distance_le_sum (pyLower s1) (pyLower s2)
        rwa [pyLower_length, pyLower_length] at hb
  · unfold calculate_similarity
    rw [if_pos (Or.inl rfl)]
    simp
  · unfold calculate_similarity
    rw [if_pos (Or.inr rfl)]
    simp

/-- C7 counterexample: the failure sentinel for the inputs ab and cd
is 3, which is not strictly larger than either length plus one (both
are 3); moreover a downstream threshold comparison can register a
match caused purely by the computation error: with the legitimate
domain made of two dots, whose base is a single dot with threshold 2,
a failing comparison against the one-character domain x records a
finding with the sentinel distance 2. -/
theorem calculate_similarity_sentinel_counterexample :
    calculate_similarity (fun _ _ => true) "ab" "cd" = 3 ∧
    ¬ ("ab".length + 1 < calculate_similarity (fun _ _ => true) "ab" "cd") ∧
    ¬ ("cd".length + 1 < calculate_similarity (fun _ _ => true) "ab" "cd") ∧
    legit_pair_step (fun _ _ => true) "x" [] ".." = Except.ok [("x", ".", 2)] := by
  refine ⟨by decide, by decide, by decide, by decide⟩

/-- C7 amended: on any internal failure with both inputs non-empty,
the edit-distance operation returns the sentinel max of the two
lengths plus one, which is at least either input length plus one
(strictly larger than either length); a threshold comparison with
threshold at most 3 therefore cannot register a match from a
computation error whenever the compared legitimate base has length at
least 3. -/
theorem calculate_similarity_failure_sentinel (fail : String → String → Bool) (s1 s2 : String) (h1 : s1 ≠ "") (h2 : s2 ≠ "") (hfail : fail s1 s2 = true) :
    calculate_similarity fail s1 s2 = max (s1.length + 1) (s2.length + 1) ∧
    s1.length + 1 ≤ calculate_similarity fail s1 s2 ∧
    s2.length + 1 ≤ calculate_similarity fail s1 s2 ∧
    (3 ≤ s2.length → ¬ calculate_similarity fail s1 s2 ≤ 3) := by
  have heval : calculate_similarity fail s1 s2 = max (s1.length + 1) (s2.length + 1) := by
    unfold calculate_similarity
    rw [if_neg (by simp [h1, h2]), if_pos hfail]
  refine ⟨heval, ?_, ?_, ?_⟩ <;> rw [heval] <;> omega

theorem calculate_similarity_failure_sentinel_witness :
    calculate_similarity (fun _ _ => true) "abc" "defg" = max ("abc".length + 1) ("defg".length + 1) ∧
    "abc".length + 1 ≤ calculate_similarity (fun _ _ => true) "abc" "defg" ∧
    "defg".length + 1 ≤ calculate_similarity (fun _ _ => true) "abc" "defg" ∧
    (3 ≤ "defg".length → ¬ calculate_similarity (fun _ _ => true) "abc" "defg" ≤ 3) :=
  calculate_similarity_failure_sentinel (fun _ _ => true) "abc" "defg" (by decide) (by decide) rfl

/-- Spec-form restatement of the amended Domain Reducer contract: with
at least three labels the base is the hostname unchanged when the
label before the top-level label is the token co, and the last two
labels joined by a dot otherwise; with fewer than three labels the
hostname is returned unchanged.  No lowercasing takes place. -/
def domainBase_amended (h : String) : String :=
  if 3 ≤ (pySplitDot h).length then
    if (pySplitDot h).getD ((pySplitDot h).length - 2) "" = "co" then h
    else joinDot ((pySplitDot h).drop ((pySplitDot h).length - 2))
  else h

/-- C1 counterexample: for the hostname shop.example.co.uk, whose
label before the top-level label is the token co, the Domain Reducer
returns the hostname unchanged, not the last three labels joined by a
dot as the claim states. -/
theorem domain_reducer_co_counterexample :
    domain_of_hostname "shop.example.co.uk" = "shop.example.co.uk" ∧
    domain_of_hostname "shop.example.co.uk" ≠ "example.co.uk" := by
  exact ⟨by decide, by decide⟩

/-- C1 amended: the Domain Reducer returns, for a hostname with at
least three dot-separated labels, the last two labels joined by a dot
when the label before the top-level label differs from the token co,
and the hostname unchanged when that label equals co; a hostname with
fewer than three labels is returned unchanged.  In particular the
reduction of mail.example.com is example.com while the reduction of
shop.example.co.uk is shop.example.co.uk itself. -/
theorem domain_reducer_amended :
    (∀ h : String, domain_of_hostname h = domainBase_amended h) ∧
    domain_of_hostname "mail.example.com" = "example.com" ∧
    domain_of_hostname "shop.example.co.uk" = "shop.example.co.uk" ∧
    domain_of_hostname "example.com" = "example.com" := by
  refine ⟨?_, by decide, by decide, by decide⟩
  intro h
  unfold domain_of_hostname domainBase_amended
  have hlen : (pySplitDot h).length = pyCountDot h + 1 := pySplitDot_length h
  by_cases hc : 1 < pyCountDot h
  · have h3 : 3 ≤ (pySplitDot h).length := by omega
    rw [if_pos h3]
    by_cases hco : (pySplitDot h).getD ((pySplitDot h).length - 2) "" = "co"
    · rw [if_pos hco, if_neg (fun hcon => hcon.2 hco)]
    · rw [if_pos ⟨hc, hco⟩, if_neg hco, drop_last_two _ (by omega), joinDot_pair]
  · have h3 : ¬ 3 ≤ (pySplitDot h).length := by omega
    rw [if_neg h3, if_neg (fun hcon => hc hcon.1)]

/-- C8 counterexample: two hostnames equal up to letter case can give
different Domain Reducer outputs, because the check against the token
co is case-sensitive, and the output is not lowercased. -/
theorem domain_reducer_case_counterexample :
    pyLower "MAIL.CO.UK" = pyLower "mail.co.uk" ∧
    domain_of_hostname "MAIL.CO.UK" = "CO.UK" ∧
    domain_of_hostname "mail.co.uk" = "mail.co.uk" ∧
    domain_of_hostname "MAIL.CO.UK" ≠ domain_of_hostname "mail.co.uk" ∧
    pyLower (domain_of_hostname "MAIL.CO.UK") ≠ domain_of_hostname "MAIL.CO.UK" := by
  exact ⟨by decide, by decide, by decide, by decide, by decide⟩

/-- C8 amended: the Domain Reducer performs no case conversion: its
output is either the hostname itself or the last two dot-separated
labels of the hostname joined by a dot, in each case with the
original casing of the input preserved verbatim. -/
theorem domain_of_hostname_no_lowercasing (h : String) :
    domain_of_hostname h = h ∨
    domain_of_hostname h = joinDot ((pySplitDot h).drop ((pySplitDot h).length - 2)) := by
  unfold domain_of_hostname
  by_cases hcond : 1 < pyCountDot h ∧ (pySplitDot h).getD ((pySplitDot h).length - 2) "" ≠ "co"
  · right
    rw [if_pos hcond]
    have hc1 := hcond.1
    have hlen := pySplitDot_length h
    rw [drop_last_two _ (by omega), joinDot_pair]
  · left
    rw [if_neg hcond]

/-- Spec-form restatement of the amended Link Normalizer contract:
the output is the deduplicated list of resolutions of exactly those
input links that do not start with one of the four dropped scheme
markers; an empty input string is not filtered and resolves to the
base URL. -/
def analyze_links_spec (resolve : String → String → String) (links : List String) (base_url : String) : List String :=
  setOfList ((links.filter (fun l => !is_dropped_scheme l)).map (urljoin resolve base_url))

theorem analyze_links_fold (resolve : String → String → String) (base_url : String) :
    ∀ (links : List String) (acc : List String),
      links.foldl
        (fun clean_links link =>
          if is_dropped_scheme link then clean_links
          else setAdd clean_links (urljoin resolve base_url link)) acc
      = ((links.filter (fun l => !is_dropped_scheme l)).map (urljoin resolve base_url)).foldl setAdd acc := by
  intro links
  induction links with
  | nil => intro acc; rfl
  | cons l ls ih =>
    intro acc
    by_cases hd : is_dropped_scheme l = true
    · simp [List.filter_cons, hd, ih]
    · simp [List.filter_cons, hd, ih]

/-- C9 counterexample: an empty input link is not dropped: it does
not start with any of the four markers, so it survives the filter and
resolves to the base URL, which appears in the output. -/
theorem analyze_links_empty_counterexample :
    analyze_links (fun _ u => u) [""] "https://site.com/x/" = ["https://site.com/x/"] ∧
    analyze_links (fun _ u => u) [""] "https://site.com/x/" ≠ [] := by
  exact ⟨by decide, by decide⟩

/-- C9 amended: for every input list and base URL, the Link
Normalizer output is exactly the deduplicated resolutions of the
inputs that do not start with the literal markers hash, mailto:,
javascript: and tel: — those inputs are dropped unconditionally — but
an empty input string is not dropped: it resolves to the base URL. -/
theorem analyze_links_eq_spec (resolve : String → String → String) (links : List String) (base_url : String) :
    analyze_links resolve links base_url = analyze_links_spec resolve links base_url := by
  unfold analyze_links analyze_links_spec setOfList
  by_cases hnil : links = []
  · subst hnil; rfl
  · rw [if_neg hnil, analyze_links_fold]

/-- C4 counterexample: the clean link is the target URL itself, so
its DomainBase equals the DomainBase of the target, yet the detector
does not skip it: the skip comparison uses the plain last-two-labels
string co.m of the target netloc while the link reduces to the full
hostname paypa.co.m, and a finding against paypal.com at distance 2
is produced. -/
theorem typo_skip_counterexample :
    urlparse_netloc "https://paypa.co.m" = Except.ok "paypa.co.m" ∧
    domain_of_hostname "paypa.co.m" = "paypa.co.m" ∧
    linksLoop urlparse_netloc (fun _ _ => false) "https://paypa.co.m" ["paypal.com"] ["https://paypa.co.m"]
      = Except.ok [("paypa.co.m", "paypal.com", 2)] := by
  exact ⟨by decide, by decide, by decide⟩

/-- C4 amended: a normalized link is skipped, producing no finding,
exactly when its DomainBase equals the string formed from the last
two labels of the target netloc joined by a dot; this coincides with
the target DomainBase only when the target itself reduces to two
labels, so a link sharing the DomainBase of a co-suffixed target can
still produce findings. -/
theorem process_link_skip (parse : String → Except Unit String) (fail : String → String → Bool) (target_url : String) (legitimate_domains : List String) (acc : List Finding) (link hn tn : String)
    (hlink : parse link = Except.ok hn)
    (htarget : parse target_url = Except.ok tn)
    (hlen : 2 ≤ (pySplitDot tn).length)
    (heq : domain_of_hostname hn =
      (pySplitDot tn).getD ((pySplitDot tn).length - 2) "" ++ "." ++
        (pySplitDot tn).getD ((pySplitDot tn).length - 1) "") :
    process_link parse fail target_url legitimate_domains acc link = Except.ok acc := by
  simp only [process_link]
  rw [hlink, exceptBind_ok, htarget, exceptBind_ok]
  have h2 : pyNegIdx (pySplitDot tn) 2 =
      Except.ok ((pySplitDot tn).getD ((pySplitDot tn).length - 2) "") := by
    unfold pyNegIdx
    rw [if_pos ⟨hlen, by omega⟩]
  have h1 : pyNegIdx (pySplitDot tn) 1 =
      Except.ok ((pySplitDot tn).getD ((pySplitDot tn).length - 1) "") := by
    unfold pyNegIdx
    rw [if_pos ⟨by omega, by omega⟩]
  rw [h2, exceptBind_ok, h1, exceptBind_ok, if_pos heq]
  rfl

theorem process_link_skip_witness :
    process_link urlparse_netloc (fun _ _ => false) "https://mail.example.com" ["paypal.com"] [] "https://shop.example.com" = Except.ok [] :=
  process_link_skip urlparse_netloc (fun _ _ => false) "https://mail.example.com" ["paypal.com"] [] "https://shop.example.com" "shop.example.com" "mail.example.com" (by decide) (by decide) (by decide) (by decide)

/-- C5 counterexample: with two clean links, one well-formed link
that alone yields a finding and one link whose hostname parsing
raises, the whole check returns the empty collection: the failure is
not contained to the failing link, and the finding from the healthy
link is discarded. -/
theorem typo_link_failure_counterexample :
    urlparse_netloc "https://[bad" = Except.error () ∧
    linksLoop urlparse_netloc (fun _ _ => false) "https://example.com" ["paypal.com"] ["https://paypa1.com"]
      = Except.ok [("paypa1.com", "paypal.com", 1)] ∧
    check_typo_squatting (fun _ => some "page") (fun _ => ["https://paypa1.com", "https://[bad"]) (fun _ u => u) urlparse_netloc (fun _ _ => false) "https://example.com" ["paypal.com"] = some [] := by
  exact ⟨by decide, by decide, by decide⟩

/-- C5 amended: an exception raised while parsing the hostname of any
one link aborts the entire typo-squat link loop, whatever links come
before or after the failing one and whatever findings were already
accumulated; the check then falls to its exception handler and
returns the empty collection.  A run with zero findings remains a
valid, non-error terminal outcome. -/
theorem linksLoop_parse_failure_aborts (parse : String → Except Unit String) (fail : String → String → Bool) (target_url : String) (legitimate_domains : List String) (pre post : List String) (bad : String) (acc fs : List Finding)
    (hbad : parse bad = Except.error ())
    (hpre : List.foldlM (process_link parse fail target_url legitimate_domains) acc pre = Except.ok fs) :
    List.foldlM (process_link parse fail target_url legitimate_domains) acc (pre ++ bad :: post) = Except.error () := by
  rw [List.foldlM_append, hpre, exceptBind_ok, List.foldlM_cons]
  have hb : process_link parse fail target_url legitimate_domains fs bad = Except.error () := by
    simp only [process_link]
    rw [hbad, exceptBind_error]
  rw [hb, exceptBind_error]

theorem linksLoop_parse_failure_aborts_witness :
    List.foldlM (process_link urlparse_netloc (fun _ _ => false) "https://example.com" ["paypal.com"]) [] (["https://paypa1.com"] ++ "https://[bad" :: []) = Except.error () :=
  linksLoop_parse_failure_aborts urlparse_netloc (fun _ _ => false) "https://example.com" ["paypal.com"] ["https://paypa1.com"] [] "https://[bad" [] [("paypa1.com", "paypal.com", 1)] (by decide) (by decide)

/-- C6: for one legitimate domain whose lowercased base extraction
succeeds, the detector derives the threshold 2 when the base length
is at most 7 and 3 otherwise, and records the finding made of the
link domain, the base and their distance exactly when the distance is
strictly positive and at most that threshold; in particular an exact
match, distance zero, never produces a finding. -/
theorem legit_pair_step_threshold (fail : String → String → Bool) (domain legit_domain : String) (acc : List Finding) (l2 l1 : String)
    (h2 : pyNegIdx (pySplitDot (pyLower legit_domain)) 2 = Except.ok l2)
    (h1 : pyNegIdx (pySplitDot (pyLower legit_domain)) 1 = Except.ok l1) :
    legit_pair_step fail domain acc legit_domain =
      Except.ok
        (if 0 < calculate_similarity fail domain (l2 ++ "." ++ l1) ∧
            calculate_similarity fail domain (l2 ++ "." ++ l1) ≤
              (if (l2 ++ "." ++ l1).length ≤ 7 then 2 else 3)
         then setAdd acc (domain, l2 ++ "." ++ l1, calculate_similarity fail domain (l2 ++ "." ++ l1))
         else acc) ∧
    (calculate_similarity fail domain (l2 ++ "." ++ l1) = 0 →
      legit_pair_step fail domain acc legit_domain = Except.ok acc) := by
  have hmain : legit_pair_step fail domain acc legit_domain =
      Except.ok
        (if 0 < calculate_similarity fail domain (l2 ++ "." ++ l1) ∧
            calculate_similarity fail domain (l2 ++ "." ++ l1) ≤
              (if (l2 ++ "." ++ l1).length ≤ 7 then 2 else 3)
         then setAdd acc (domain, l2 ++ "." ++ l1, calculate_similarity fail domain (l2 ++ "." ++ l1))
         else acc) := by
    simp only [legit_pair_step]
    rw [h2, exceptBind_ok, h1, exceptBind_ok]
    rfl
  refine ⟨hmain, fun hz => ?_⟩
  have hnot : ¬ (0 < calculate_similarity fail domain (l2 ++ "." ++ l1) ∧
      calculate_similarity fail domain (l2 ++ "." ++ l1) ≤
        (if (l2 ++ "." ++ l1).length ≤ 7 then 2 else 3)) := by
    rw [hz]
    intro hcon
    exact absurd hcon.1 (by omega)
  rw [hmain, if_neg hnot]

theorem legit_pair_step_threshold_witness :
    legit_pair_step (fun _ _ => false) "paypa1.com" [] "paypal.com" =
      Except.ok
        (if 0 < calculate_similarity (fun _ _ => false) "paypa1.com" ("paypal" ++ "." ++ "com") ∧
            calculate_similarity (fun _ _ => false) "paypa1.com" ("paypal" ++ "." ++ "com") ≤
              (if ("paypal" ++ "." ++ "com").length ≤ 7 then 2 else 3)
         then setAdd [] ("paypa1.com", "paypal" ++ "." ++ "com", calculate_similarity (fun _ _ => false) "paypa1.com" ("paypal" ++ "." ++ "com"))
         else []) ∧
    (calculate_similarity (fun _ _ => false) "paypa1.com" ("paypal" ++ "." ++ "com") = 0 →
      legit_pair_step (fun _ _ => false) "paypa1.com" [] "paypal.com" = Except.ok []) :=
  legit_pair_step_threshold (fun _ _ => false) "paypa1.com" "paypal.com" [] "paypal" "com" (by decide) (by decide)

end PhishGuard
